import Mathlib

/-!
# Execution Session Manager — shallow embedding

A shallow embedding of `src/server/services/python-executor.ts` (the
Execution Session Manager of Pynote-lite) and proofs about it.

The JavaScript event loop is modelled by a list of atomic events folded
over an explicit session state; JS promises are modelled by `Option`
fields updated with a first-write-wins `resolveOnce` (a JS promise
settles at most once; later `resolve` calls are no-ops).  A `throw`
inside an `async` function or a promise executor is modelled as a
recorded rejection message.  Wall-clock time is not modelled: the 10
second timer of `executeInteractiveCell` is the event `Ev.timeoutFire`,
delivered by the environment, and `executionTime` is omitted from
results.  JS strings are modelled as `String` with the relevant
`includes` / `endsWith` / `split` / `trim` operations re-implemented
below over `List Char`.
-/

namespace PyNote

/-! ## JS string operations -/

/-- JS `\s` for the ASCII range (space, tab, newline, CR, vertical tab, form feed);
also the characters removed by JS `String.prototype.trim`. -/
def isSpaceChar (c : Char) : Bool :=
  c = ' ' || c = '\t' || c = '\n' || c = '\r' || c = '\x0b' || c = '\x0c'

/-- JS regex word character `\w` = `[A-Za-z0-9_]`. -/
def isWordChar (c : Char) : Bool :=
  c.isAlpha || c.isDigit || c = '_'

/-- Substring occurrence on character lists: `occursL pat s` is true iff
`pat` occurs contiguously in `s` (the semantics of JS `String.prototype.includes`). -/
def occursL (pat : List Char) : List Char → Bool
  | [] => pat.isEmpty
  | c :: rest => pat.isPrefixOf (c :: rest) || occursL pat rest

/-- JS `s.includes(pat)`. -/
def strIncludes (s pat : String) : Bool := occursL pat.data s.data

/-- JS `s.endsWith(pat)`. -/
def strEndsWith (s pat : String) : Bool := pat.data.isSuffixOf s.data

/-- JS `s.startsWith(pat)` / prefix test, used to state transcript preservation. -/
def strPrefix (pat s : String) : Bool := pat.data.isPrefixOf s.data

/-- JS `s.split('\n')` on character lists: boundary-separated fields,
always at least one (possibly empty) field. -/
def splitLinesL : List Char → List (List Char)
  | [] => [[]]
  | c :: rest =>
    if c = '\n' then [] :: splitLinesL rest
    else
      match splitLinesL rest with
      | [] => [[c]]
      | l :: ls => (c :: l) :: ls

/-- `lines[lines.length - 1]` after `buffer.split('\n')`. -/
def lastLine (s : String) : String :=
  String.mk ((splitLinesL s.data).getLastD [])

/-- JS `String.prototype.trim` (whitespace stripped from both ends). -/
def jsTrim (s : String) : String :=
  String.mk (((s.data.dropWhile isSpaceChar).reverse.dropWhile isSpaceChar).reverse)

/-! ## The input-requesting-construct scan (`/\binput\s*\(/.test(code)`) -/

/-- After the literal `input`, the regex requires `\s*` then `(`. -/
def spacesThenParen : List Char → Bool
  | [] => false
  | c :: rest => if c = '(' then true else if isSpaceChar c then spacesThenParen rest else false

/-- Does `input\s*\(` match at the head of the list? -/
def inputCallAt : List Char → Bool
  | 'i' :: 'n' :: 'p' :: 'u' :: 't' :: rest => spacesThenParen rest
  | _ => false

/-- Scan for `\binput\s*\(`: the boolean argument records whether the
previous character was a word character (for the `\b` boundary). -/
def hasInputScan : Bool → List Char → Bool
  | _, [] => false
  | prevWord, c :: rest =>
    (!prevWord && inputCallAt (c :: rest)) || hasInputScan (isWordChar c) rest

/-- `executeCell` line 39: `const hasInput = /\binput\s*\(/.test(code)`. -/
def hasInputCall (code : String) : Bool := hasInputScan false code.data

/-! ## The input-wait detector (lines 135–144) -/

/-- Lines 140–142: classify the session as waiting for interactive input,
given the accumulated stdout transcript (`buffer`) and the just-appended
chunk (`text`). -/
def detectInputWait (buffer chunk : String) : Bool :=
  !(lastLine buffer).isEmpty && !(strIncludes (lastLine buffer) ">>>") &&
    !(strIncludes (lastLine buffer) "...") &&
    (strIncludes buffer ">>> " || strEndsWith chunk ": " || strIncludes chunk "Enter " ||
     strIncludes chunk "input" || strIncludes chunk "?")

/-- Line 144: `session.inputPrompt = lastLine.trim()`. -/
def extractPrompt (buffer : String) : String := jsTrim (lastLine buffer)

/-! ## Execution results and events -/

/-- The `ExecutionResult` interface (lines 5–12), minus the wall-clock
`executionTime` field, which is not modelled. -/
structure ExecutionResult where
  output : String
  error : String
  success : Bool
  isWaitingForInput : Bool := false
  inputPrompt : String := ""
  deriving Repr, DecidableEq

/-- The spec's §3 "combined output text" of an Execution Result: the
result's stdout text followed by its stderr text. -/
def combinedText (r : ExecutionResult) : String := r.output ++ r.error

/-- A JS promise settles at most once: later `resolve` calls are no-ops. -/
def resolveOnce (r : Option ExecutionResult) (v : ExecutionResult) : Option ExecutionResult :=
  match r with
  | none => some v
  | some x => some x

/-- First rejection wins, likewise. -/
def rejectOnce (r : Option String) (msg : String) : Option String :=
  match r with
  | none => some msg
  | some x => some x

/-- Atomic events delivered by the runtime to one cell's execution:
stdout / stderr chunks, process close (exit code, `none` when killed by a
signal — Node then reports `code === null`), the process `error` event
(spawn failure), the 10 s timer firing, a `stopExecution` call, and a
`sendInput` call. -/
inductive Ev where
  | out (chunk : String)
  | errOut (chunk : String)
  | closed (code : Option Int)
  | spawnFail (msg : String)
  | timeoutFire
  | stopReq
  | sendReq (inp : String)
  deriving Repr, DecidableEq

/-- Events that are plain stream data (stdout/stderr chunks). -/
def isDataEv : Ev → Bool
  | .out _ => true
  | .errOut _ => true
  | _ => false

/-- Which of the two `executeCell` paths runs, decided once before spawn
(line 41). -/
inductive ExecPath where
  | plain
  | interactive
  deriving Repr, DecidableEq

/-- Lines 39–43: `executeCell` dispatches on the textual `input(` scan. -/
def executePath (code : String) : ExecPath :=
  if hasInputCall code then ExecPath.interactive else ExecPath.plain

/-! ## The non-interactive path (`executeCell`, lines 45–92) -/

/-- State of one non-interactive cell execution: the accumulated `output`
and `error` locals, membership in `activeProcesses`, process liveness,
and the promise's resolution. -/
structure PlainSt where
  output : String
  error : String
  inActive : Bool
  alive : Bool
  resolved : Option ExecutionResult
  deriving Repr, DecidableEq

/-- State right after the spawn at lines 54–59. -/
def plainInit : PlainSt :=
  { output := "", error := "", inActive := true, alive := true, resolved := none }

/-- One event against the non-interactive handlers.  Note that
`executeCell` registers **no** timer, so `Ev.timeoutFire` has no handler
and is a no-op, and a plain cell has no entry in `executionSessions`, so
a `sendInput` call does not touch this state either. -/
def plainStep (s : PlainSt) : Ev → PlainSt
  | .out c => { s with output := s.output ++ c }
  | .errOut c => { s with error := s.error ++ c }
  | .closed code =>
      { s with inActive := false, alive := false,
               resolved := resolveOnce s.resolved
                 { output := s.output, error := s.error, success := decide (code = some 0) } }
  | .spawnFail msg =>
      { s with inActive := false, alive := false,
               resolved := resolveOnce s.resolved
                 { output := "", error := msg, success := false } }
  | .timeoutFire => s
  | .stopReq => if s.inActive then { s with alive := false, inActive := false } else s
  | .sendReq _ => s

/-- Run a non-interactive cell against a list of events. -/
def plainRun (evs : List Ev) : PlainSt := evs.foldl plainStep plainInit

/-! ## The interactive path (`executeInteractiveCell`, lines 95–207, and
`sendInput`, lines 209–260) -/

/-- `input + '\n'` appended `n` times — each `sendInput` call attaches one
more `onData` listener (line 253) that is only removed on close, so after
`n` resumes every stdout chunk is appended `n` extra times to
`session.output`. -/
def repChunk (c : String) : Nat → String
  | 0 => ""
  | n + 1 => c ++ repChunk c n

/-- State of one interactive cell execution: the `output` / `error` /
`buffer` locals of `executeInteractiveCell`, the `session` record's
transcripts and input-wait fields, registry membership
(`executionSessions` / `activeProcesses`), process liveness, the number
of listener pairs attached by `sendInput` calls, everything written to
the process's stdin, the `executeCell` promise's resolution, and the
resolution/rejection of `sendInput` promises (first-wins). -/
structure InterSt where
  output : String
  error : String
  buffer : String
  sessOutput : String
  sessError : String
  isWaitingForInput : Bool
  inputPrompt : String
  inSessions : Bool
  inActive : Bool
  alive : Bool
  resumeListeners : Nat
  stdinWrites : List String
  execResolved : Option ExecutionResult
  sendResolved : Option ExecutionResult
  sendRejected : Option String
  deriving Repr, DecidableEq

/-- Line 126: the code is fed to the REPL through stdin. -/
def execFeedLine (tempFile : String) : String :=
  "exec(open(" ++ "'" ++ tempFile ++ "'" ++ ").read())" ++ "\n"

/-- State right after the spawn and session registration, lines 107–126. -/
def interInit (tempFile : String) : InterSt :=
  { output := "", error := "", buffer := "", sessOutput := "", sessError := "",
    isWaitingForInput := false, inputPrompt := "",
    inSessions := true, inActive := true, alive := true,
    resumeListeners := 0, stdinWrites := [execFeedLine tempFile],
    execResolved := none, sendResolved := none, sendRejected := none }

/-- The message of the `throw` at line 212. -/
def invalidSendMsg : String := "No active input session found or stdin not available"

/-- Modelled OS error for a stdin write against an exited process.  The
source has no `try`/`catch` around the write at line 220, so the failure
escapes the promise executor as a rejection (recorded in
`sendRejected`), never as a resolved `ExecutionResult`. -/
def writeFailMsg : String := "EPIPE: stdin write after process exit"

/-- One event against the interactive handlers.

* `out`: the original stdout listener (lines 129–157) appends to
  `buffer`, `output` and `session.output`, then runs the input-wait
  detector on the updated buffer and the chunk and, on a positive
  classification, marks the session waiting and resolves the execute
  promise with an intermediate waiting result (`success: false`); then
  each listener attached by a `sendInput` call appends the chunk to
  `session.output` once more.
* `errOut`: symmetric for stderr (lines 159–163 and 228–230, 255–257).
* `closed`: the close handler (lines 165–176) removes the registry
  entries and resolves the execute promise with `success: code === 0`;
  then, if `sendInput` listeners are attached, its `onClose` (lines
  232–250) detaches them and resolves the `sendInput` promise from the
  session transcripts with `success: code === 0`.
* `spawnFail`: the error handler (lines 178–189) removes the entries and
  resolves with the OS message as `error` and `success: false`.
* `timeoutFire`: lines 192–205 — if the session is still registered,
  kill the process, remove the entries and resolve with `success: true`
  and whatever output accumulated; otherwise do nothing.
* `stopReq`: `stopExecution` (lines 311–319) kills the process if it is
  in `activeProcesses`.
* `sendReq`: `sendInput` (lines 209–260) — throws if the session is
  missing or not waiting; otherwise clears the waiting flag, writes
  `input + '\n'` to stdin (rejecting if the process is gone) and
  attaches continuation listeners. -/
def interStep (s : InterSt) : Ev → InterSt
  | .out c =>
    let buffer := s.buffer ++ c
    let output := s.output ++ c
    let s1 := { s with buffer := buffer, output := output,
                       sessOutput := s.sessOutput ++ c }
    let s2 :=
      if detectInputWait buffer c then
        { s1 with isWaitingForInput := true, inputPrompt := extractPrompt buffer,
                  execResolved := resolveOnce s1.execResolved
                    { output := output, error := s.error, success := false,
                      isWaitingForInput := true, inputPrompt := extractPrompt buffer } }
      else s1
    { s2 with sessOutput := s2.sessOutput ++ repChunk c s.resumeListeners }
  | .errOut c =>
    let s1 := { s with error := s.error ++ c, sessError := s.sessError ++ c }
    { s1 with sessError := s1.sessError ++ repChunk c s.resumeListeners }
  | .closed code =>
    let s1 := { s with alive := false, inActive := false, inSessions := false,
                       execResolved := resolveOnce s.execResolved
                         { output := s.output, error := s.error,
                           success := decide (code = some 0) } }
    if s.resumeListeners ≠ 0 then
      { s1 with resumeListeners := 0,
                sendResolved := resolveOnce s1.sendResolved
                  { output := s1.sessOutput, error := s1.sessError,
                    success := decide (code = some 0) } }
    else s1
  | .spawnFail msg =>
    { s with alive := false, inActive := false, inSessions := false,
             execResolved := resolveOnce s.execResolved
               { output := "", error := msg, success := false } }
  | .timeoutFire =>
    if s.inSessions then
      { s with alive := false, inActive := false, inSessions := false,
               execResolved := resolveOnce s.execResolved
                 { output := s.output, error := s.error, success := true } }
    else s
  | .stopReq => if s.inActive then { s with alive := false, inActive := false } else s
  | .sendReq inp =>
    if s.inSessions && s.isWaitingForInput then
      let s1 := { s with isWaitingForInput := false, inputPrompt := "" }
      if s1.alive then
        { s1 with stdinWrites := s1.stdinWrites ++ [inp ++ "\n"],
                  resumeListeners := s1.resumeListeners + 1 }
      else
        { s1 with sendRejected := rejectOnce s1.sendRejected writeFailMsg }
    else
      { s with sendRejected := rejectOnce s.sendRejected invalidSendMsg }

/-- Run an interactive cell from a given state. -/
def interRunFrom (s : InterSt) (evs : List Ev) : InterSt := evs.foldl interStep s

/-- Run an interactive cell from the freshly spawned state. -/
def interRun (tempFile : String) (evs : List Ev) : InterSt :=
  interRunFrom (interInit tempFile) evs

/-! ## Export generators (`generateNotebookPy` lines 328–338,
`generateNotebookIpynb` lines 340–371)

The notebook cells handed to the generators have `type` drawn from
`'python' | 'markdown'` (see the `notebookCells` schema comment), an
optional captured `output`, and a `content` string.  `JSON.stringify`
and JSON parsing are assumed mutually inverse; the structured document
is modelled as the JSON tree the source builds at lines 341–368, and
"re-parsing" as a generic reader over that tree. -/

/-- The two cell kinds of the notebook data model. -/
inductive CellType where
  | python
  | markdown
  deriving Repr, DecidableEq

/-- One exported cell: `{ type, content, output? }`. -/
structure NBCell where
  type : CellType
  content : String
  output : Option String
  deriving Repr, DecidableEq

/-- JS truthiness of `cell.output` (`undefined` and `""` are falsy). -/
def truthyOutput : Option String → Bool
  | some o => !o.isEmpty
  | none => false

/-- A JSON tree. -/
inductive Json where
  | str (s : String)
  | num (n : Int)
  | null
  | arr (xs : List Json)
  | obj (fields : List (String × Json))

/-- The object built for one cell at lines 342–354. -/
def ipynbCell (idx : Nat) (c : NBCell) : Json :=
  Json.obj
    [("cell_type", Json.str (if c.type = CellType.python then "code" else "markdown")),
     ("execution_count",
        if c.type = CellType.python then Json.num (Int.ofNat (idx + 1)) else Json.null),
     ("metadata", Json.obj []),
     ("outputs", Json.arr
        (match c.output with
         | some o =>
           if o.isEmpty then []
           else [Json.obj [("output_type", Json.str "stream"),
                           ("name", Json.str "stdout"),
                           ("text", Json.arr [Json.str o])]]
         | none => [])),
     ("source", Json.arr [Json.str c.content])]

/-- The mapped cell array, carrying the running index of `cells.map`. -/
def ipynbCells : Nat → List NBCell → List Json
  | _, [] => []
  | i, c :: cs => ipynbCell i c :: ipynbCells (i + 1) cs

/-- The whole notebook object of lines 341–368. -/
def generateNotebookIpynbJson (cells : List NBCell) : Json :=
  Json.obj
    [("cells", Json.arr (ipynbCells 0 cells)),
     ("metadata", Json.obj
        [("kernelspec", Json.obj
            [("display_name", Json.str "Python 3"),
             ("language", Json.str "python"),
             ("name", Json.str "python3")]),
         ("language_info", Json.obj
            [("name", Json.str "python"),
             ("version", Json.str "3.8.0")])]),
     ("nbformat", Json.num 4),
     ("nbformat_minor", Json.num 4)]

/-- Field lookup in a JSON object. -/
def jLookup : List (String × Json) → String → Option Json
  | [], _ => none
  | (k, v) :: rest, key => if k = key then some v else jLookup rest key

/-- Concatenate a JSON array of strings (the nbformat convention for
`source` and `text` blocks). -/
def joinStrs : List Json → Option String
  | [] => some ""
  | .str s :: rest =>
    match joinStrs rest with
    | some t => some (s ++ t)
    | none => none
  | _ :: _ => none

/-- Read a cell's captured output back from its `outputs` block: an
empty block means no captured output; a single stream block yields its
joined `text`. -/
def parseOutputs : List Json → Option (Option String)
  | [] => some none
  | [Json.obj fields] =>
    match jLookup fields "text" with
    | some (Json.arr xs) =>
      match joinStrs xs with
      | some t => some (some t)
      | none => none
    | _ => none
  | _ => none

/-- Recover one cell from its JSON block. -/
def parseCellJson (j : Json) : Option NBCell :=
  match j with
  | .obj fields =>
    match jLookup fields "cell_type", jLookup fields "source", jLookup fields "outputs" with
    | some (.str ct), some (.arr src), some (.arr outs) =>
      match (if ct = "code" then some CellType.python
             else if ct = "markdown" then some CellType.markdown
             else none), joinStrs src, parseOutputs outs with
      | some k, some content, some outp =>
        some { type := k, content := content, output := outp }
      | _, _, _ => none
    | _, _, _ => none
  | _ => none

/-- Recover the ordered cell list. -/
def parseCells : List Json → Option (List NBCell)
  | [] => some []
  | j :: rest =>
    match parseCellJson j, parseCells rest with
    | some c, some cs => some (c :: cs)
    | _, _ => none

/-- Re-parse a structured-document tree back into the ordered unit list. -/
def parseNotebook (j : Json) : Option (List NBCell) :=
  match j with
  | .obj fields =>
    match jLookup fields "cells" with
    | some (.arr cellJs) => parseCells cellJs
    | _ => none
  | _ => none

/-- JS `Array.prototype.join('\n')`. -/
def joinNL : List String → String
  | [] => ""
  | [x] => x
  | x :: y :: rest => x ++ "\n" ++ joinNL (y :: rest)

/-- The text rendered for one cell at lines 330–336. -/
def pyCellText (idx : Nat) (c : NBCell) : String :=
  if c.type = CellType.python then
    "# Cell " ++ toString (idx + 1) ++ "\n" ++ c.content ++ "\n"
  else
    "# Markdown Cell " ++ toString (idx + 1) ++ "\n" ++ "\"\"\"\n" ++ c.content ++ "\n\"\"\"\n"

/-- The mapped text list, carrying the running index. -/
def pyCellTexts : Nat → List NBCell → List String
  | _, [] => []
  | i, c :: cs => pyCellText i c :: pyCellTexts (i + 1) cs

/-- `generateNotebookPy` (lines 328–338). -/
def generateNotebookPy (cells : List NBCell) : String :=
  joinNL (pyCellTexts 0 cells)

/-! ## Spec-side detector vocabulary (§4.3), for the refinement claim C2 -/

/-- Spec-side: the final line "looks like a continuation-of-statement
marker" — it contains one of the REPL statement-entry / continuation
markers `>>>` or `...`. -/
def specReplMarkerLine (line : String) : Bool :=
  strIncludes line ">>>" || strIncludes line "..."

/-- Spec-side: the chunk contains a word conventionally used to request
input (`Enter ` or `input`). -/
def specInputWord (chunk : String) : Bool :=
  strIncludes chunk "Enter " || strIncludes chunk "input"

/-! ## Helper lemmas: substrings -/

theorem occursL_iff (pat s : List Char) : occursL pat s = true ↔ pat <:+: s := by
  induction s with
  | nil => simp [occursL, List.isEmpty_iff, List.infix_nil]
  | cons c rest ih =>
    rw [occursL, List.infix_cons_iff]
    simp [Bool.or_eq_true, List.isPrefixOf_iff_prefix, ih]

theorem strIncludes_iff (s pat : String) : strIncludes s pat = true ↔ pat.data <:+: s.data :=
  occursL_iff pat.data s.data

theorem strIncludes_append_left (a b pat : String) (h : strIncludes a pat = true) :
    strIncludes (a ++ b) pat = true := by
  rw [strIncludes_iff] at h ⊢
  rw [String.data_append]
  exact h.trans ((List.prefix_append a.data b.data).isInfix)

theorem strIncludes_append_mid (a pat b : String) :
    strIncludes (a ++ pat ++ b) pat = true := by
  rw [strIncludes_iff, String.data_append, String.data_append]
  exact List.infix_append a.data pat.data b.data

theorem strPrefix_append (a b : String) : strPrefix a (a ++ b) = true := by
  rw [strPrefix, List.isPrefixOf_iff_prefix, String.data_append]
  exact List.prefix_append a.data b.data

theorem strIsEmpty_false_iff (s : String) : s.isEmpty = false ↔ s ≠ "" :=
  Bool.eq_false_iff.trans (not_congr (String.isEmpty_iff s))

/-! ## Helper lemmas: stream-data events leave the control state alone -/

theorem plainStep_data (s : PlainSt) (e : Ev) (h : isDataEv e = true) :
    (plainStep s e).inActive = s.inActive ∧ (plainStep s e).alive = s.alive ∧
    (plainStep s e).resolved = s.resolved := by
  cases e <;> simp_all [plainStep, isDataEv]

theorem plainFold_data (evs : List Ev) (s : PlainSt) (h : ∀ e ∈ evs, isDataEv e = true) :
    (evs.foldl plainStep s).inActive = s.inActive ∧
    (evs.foldl plainStep s).alive = s.alive ∧
    (evs.foldl plainStep s).resolved = s.resolved := by
  induction evs generalizing s with
  | nil => simp
  | cons e rest ih =>
    have hs := plainStep_data s e (h e (by simp))
    have hr := ih (plainStep s e) (fun e' h' => h e' (by simp [h']))
    simp only [List.foldl_cons]
    exact ⟨hr.1.trans hs.1, hr.2.1.trans hs.2.1, hr.2.2.trans hs.2.2⟩

theorem interStep_out (s : InterSt) (c : String) :
    (interStep s (.out c)).inSessions = s.inSessions ∧
    (interStep s (.out c)).inActive = s.inActive ∧
    (interStep s (.out c)).alive = s.alive ∧
    (interStep s (.out c)).resumeListeners = s.resumeListeners ∧
    (interStep s (.out c)).stdinWrites = s.stdinWrites ∧
    (interStep s (.out c)).sendResolved = s.sendResolved ∧
    (interStep s (.out c)).sendRejected = s.sendRejected ∧
    (interStep s (.out c)).sessOutput
      = s.sessOutput ++ c ++ repChunk c s.resumeListeners := by
  cases hd : detectInputWait (s.buffer ++ c) c <;> simp [interStep, hd]

theorem interStep_errOut (s : InterSt) (c : String) :
    (interStep s (.errOut c)).inSessions = s.inSessions ∧
    (interStep s (.errOut c)).inActive = s.inActive ∧
    (interStep s (.errOut c)).alive = s.alive ∧
    (interStep s (.errOut c)).resumeListeners = s.resumeListeners ∧
    (interStep s (.errOut c)).stdinWrites = s.stdinWrites ∧
    (interStep s (.errOut c)).sendResolved = s.sendResolved ∧
    (interStep s (.errOut c)).sendRejected = s.sendRejected ∧
    (interStep s (.errOut c)).sessOutput = s.sessOutput := by
  simp [interStep]

theorem interFold_data (evs : List Ev) (s : InterSt) (h : ∀ e ∈ evs, isDataEv e = true) :
    (interRunFrom s evs).inSessions = s.inSessions ∧
    (interRunFrom s evs).inActive = s.inActive ∧
    (interRunFrom s evs).alive = s.alive ∧
    (interRunFrom s evs).resumeListeners = s.resumeListeners ∧
    (interRunFrom s evs).stdinWrites = s.stdinWrites ∧
    (interRunFrom s evs).sendResolved = s.sendResolved ∧
    (interRunFrom s evs).sendRejected = s.sendRejected ∧
    (∃ t, (interRunFrom s evs).sessOutput = s.sessOutput ++ t) ∧
    (∀ ch, Ev.out ch ∈ evs → strIncludes (interRunFrom s evs).sessOutput ch = true) := by
  induction evs generalizing s with
  | nil =>
    refine ⟨rfl, rfl, rfl, rfl, rfl, rfl, rfl, ⟨"", ?_⟩, by simp [interRunFrom]⟩
    simp [interRunFrom]
  | cons e rest ih =>
    have hr := ih (interStep s e) (fun e' h' => h e' (by simp [h']))
    have hnext : interRunFrom s (e :: rest) = interRunFrom (interStep s e) rest := by
      simp [interRunFrom]
    rw [hnext]
    cases e with
    | out c =>
      have hs := interStep_out s c
      refine ⟨hr.1.trans hs.1, hr.2.1.trans hs.2.1, hr.2.2.1.trans hs.2.2.1,
        hr.2.2.2.1.trans hs.2.2.2.1, hr.2.2.2.2.1.trans hs.2.2.2.2.1,
        hr.2.2.2.2.2.1.trans hs.2.2.2.2.2.1, hr.2.2.2.2.2.2.1.trans hs.2.2.2.2.2.2.1,
        ?_, ?_⟩
      · obtain ⟨t, ht⟩ := hr.2.2.2.2.2.2.2.1
        refine ⟨c ++ repChunk c s.resumeListeners ++ t, ?_⟩
        rw [ht, hs.2.2.2.2.2.2.2]
        simp [String.append_assoc]
      · intro ch hch
        rcases List.mem_cons.mp hch with hc | hc
        · obtain ⟨t, ht⟩ := hr.2.2.2.2.2.2.2.1
          rw [ht, hs.2.2.2.2.2.2.2]
          have : Ev.out ch = Ev.out c := hc
          have hcc : ch = c := by injection this
          subst hcc
          exact strIncludes_append_left _ t ch (strIncludes_append_mid s.sessOutput ch _)
        · exact hr.2.2.2.2.2.2.2.2 ch hc
    | errOut c =>
      have hs := interStep_errOut s c
      refine ⟨hr.1.trans hs.1, hr.2.1.trans hs.2.1, hr.2.2.1.trans hs.2.2.1,
        hr.2.2.2.1.trans hs.2.2.2.1, hr.2.2.2.2.1.trans hs.2.2.2.2.1,
        hr.2.2.2.2.2.1.trans hs.2.2.2.2.2.1, hr.2.2.2.2.2.2.1.trans hs.2.2.2.2.2.2.1,
        ?_, ?_⟩
      · obtain ⟨t, ht⟩ := hr.2.2.2.2.2.2.2.1
        exact ⟨t, by rw [ht, hs.2.2.2.2.2.2.2]⟩
      · intro ch hch
        rcases List.mem_cons.mp hch with hc | hc
        · exact absurd hc (by simp)
        · exact hr.2.2.2.2.2.2.2.2 ch hc
    | closed code =>
      have hmem := h (Ev.closed code) (List.mem_cons_self _ _)
      simp [isDataEv] at hmem
    | spawnFail msg =>
      have hmem := h (Ev.spawnFail msg) (List.mem_cons_self _ _)
      simp [isDataEv] at hmem
    | timeoutFire =>
      have hmem := h Ev.timeoutFire (List.mem_cons_self _ _)
      simp [isDataEv] at hmem
    | stopReq =>
      have hmem := h Ev.stopReq (List.mem_cons_self _ _)
      simp [isDataEv] at hmem
    | sendReq inp =>
      have hmem := h (Ev.sendReq inp) (List.mem_cons_self _ _)
      simp [isDataEv] at hmem

theorem interStep_closed_resume (s : InterSt) (code : Option Int)
    (h : s.resumeListeners ≠ 0) :
    (interStep s (Ev.closed code)).sendResolved =
      resolveOnce s.sendResolved
        { output := s.sessOutput, error := s.sessError,
          success := decide (code = some 0) } := by
  simp only [interStep]
  rw [if_pos h]

theorem interStep_timeout_reg (s : InterSt) (h : s.inSessions = true) :
    interStep s Ev.timeoutFire =
      { s with alive := false, inActive := false, inSessions := false,
               execResolved := resolveOnce s.execResolved
                 { output := s.output, error := s.error, success := true } } := by
  simp [interStep, h]

/-! ## Claims -/

/-- C1, counterexample: the claim quantifies over *every* submitted code
unit, but the 10-time-unit timer exists only on the interactive path.
The unit `while True:\n    pass` never terminates, produces no output
(so the input-wait heuristic never matches), and contains no `input(`
construct, so `executeCell` takes the non-interactive path — which
registers no timer at all: after the timeout mark (and at any later
point without a process exit) nothing has resolved, contradicting
"execute resolves after the fixed 10-time-unit wall-clock timeout with
success true". -/
theorem C1_counterexample :
    hasInputCall "while True:\n    pass" = false ∧
    (plainRun [Ev.timeoutFire]).resolved = none ∧
    (plainRun [Ev.timeoutFire, Ev.timeoutFire, Ev.timeoutFire]).resolved = none :=
  ⟨by decide, rfl, rfl⟩

/-- C1, amended: for every submitted code unit *containing an
input-requesting construct* (hence on the interactive path) that never
terminates and whose output never matches the input-wait heuristic, the
execution resolves at the fixed 10-time-unit timeout with `success:
true` and whatever output had accumulated, the process having been
killed and the session removed; code units without such a construct run
on the non-interactive path, which registers no timer (`timeoutFire` is
a no-op there), so they resolve only on process exit. -/
theorem C1_amended_timeout (code tempFile : String) (evs : List Ev)
    (hint : hasInputCall code = true)
    (hdata : ∀ e ∈ evs, isDataEv e = true)
    (hnodet : (interRun tempFile evs).execResolved = none) :
    executePath code = ExecPath.interactive ∧
    (interStep (interRun tempFile evs) Ev.timeoutFire).execResolved =
      some { output := (interRun tempFile evs).output,
             error := (interRun tempFile evs).error, success := true } ∧
    (interStep (interRun tempFile evs) Ev.timeoutFire).alive = false ∧
    (interStep (interRun tempFile evs) Ev.timeoutFire).inSessions = false ∧
    (∀ s : PlainSt, plainStep s Ev.timeoutFire = s) := by
  have hfold := interFold_data evs (interInit tempFile) hdata
  have hsess : (interRun tempFile evs).inSessions = true := by
    rw [interRun, hfold.1]; rfl
  rw [interStep_timeout_reg _ hsess]
  refine ⟨by simp [executePath, hint], ?_, rfl, rfl, fun s => rfl⟩
  simp [hnodet, resolveOnce]

/-- C1, witness for the amended theorem at the concrete unit `input()`
with no output before the timeout. -/
theorem C1_amended_timeout_witness :
    executePath "input()" = ExecPath.interactive ∧
    (interStep (interRun "cell_1.py" []) Ev.timeoutFire).execResolved =
      some { output := "", error := "", success := true } := by
  have h := C1_amended_timeout "input()" "cell_1.py" [] (by decide) (by simp) (by decide)
  exact ⟨h.1, h.2.1⟩

/-- C2: the input-wait detector classifies the session as waiting
exactly when the final newline-split line of the transcript is
non-empty and does not contain a REPL statement/continuation marker
(`>>>` / `...`), and at least one of: the transcript contains the
interactive-prompt marker `>>> `, the chunk ends with colon-then-space,
the chunk contains an input-requesting word (`Enter ` or `input`), or
the chunk contains a question mark; and a positive classification sets
the extracted prompt to the trimmed final line. -/
theorem C2_detector_matches_spec (s : InterSt) (c : String) :
    (detectInputWait (s.buffer ++ c) c = true ↔
      (lastLine (s.buffer ++ c) ≠ "" ∧
       specReplMarkerLine (lastLine (s.buffer ++ c)) = false ∧
       (strIncludes (s.buffer ++ c) ">>> " = true ∨ strEndsWith c ": " = true ∨
        specInputWord c = true ∨ strIncludes c "?" = true))) ∧
    (detectInputWait (s.buffer ++ c) c = true →
      (interStep s (Ev.out c)).isWaitingForInput = true ∧
      (interStep s (Ev.out c)).inputPrompt = jsTrim (lastLine (s.buffer ++ c))) := by
  constructor
  · simp only [detectInputWait, specReplMarkerLine, specInputWord, Bool.and_eq_true,
      Bool.or_eq_true, Bool.not_eq_true', Bool.or_eq_false_iff, strIsEmpty_false_iff]
    tauto
  · intro hd
    simp [interStep, hd, extractPrompt]

/-- C2, witness for the inner implication: the chunk `Enter name: `
arriving on an empty transcript is classified as an input wait and the
prompt is the trimmed final line `Enter name:`. -/
theorem C2_detector_matches_spec_witness :
    (interStep (interInit "cell_1.py") (Ev.out "Enter name: ")).isWaitingForInput = true ∧
    (interStep (interInit "cell_1.py") (Ev.out "Enter name: ")).inputPrompt = "Enter name:" := by
  have h := (C2_detector_matches_spec (interInit "cell_1.py") "Enter name: ").2 (by decide)
  exact ⟨h.1, h.2.trans (by decide)⟩

/-- C3, counterexample: forwarding input for an identifier with no
session waiting does not return a failure result — `sendInput` throws
(line 212), surfacing to the caller as a rejected promise carrying
`No active input session found or stdin not available`, and no
`ExecutionResult` is produced. -/
theorem C3_counterexample :
    (interStep (interInit "cell_1.py") (Ev.sendReq "42")).sendRejected =
      some invalidSendMsg ∧
    (interStep (interInit "cell_1.py") (Ev.sendReq "42")).sendResolved = none := by
  exact ⟨by decide, by decide⟩

/-- C3, amended: for every session that is not currently in the
`WaitingForInput` state (including identifiers with no live session),
`sendInput` raises — the returned promise rejects with the error
`No active input session found or stdin not available` — rather than
returning an explicit failure result; the session state is otherwise
untouched and nothing is written to the process. -/
theorem C3_amended_send_throws (s : InterSt) (inp : String)
    (h : s.inSessions = false ∨ s.isWaitingForInput = false)
    (hfresh : s.sendRejected = none) :
    interStep s (Ev.sendReq inp) = { s with sendRejected := some invalidSendMsg } := by
  have hguard : (s.inSessions && s.isWaitingForInput) = false := by
    rcases h with h | h <;> simp [h]
  simp [interStep, hguard, hfresh, rejectOnce]

/-- C3, witness for the amended theorem at the freshly spawned (not yet
waiting) session. -/
theorem C3_amended_send_throws_witness :
    interStep (interInit "cell_1.py") (Ev.sendReq "42") =
      { interInit "cell_1.py" with sendRejected := some invalidSendMsg } :=
  C3_amended_send_throws (interInit "cell_1.py") "42" (Or.inr rfl) rfl

/-- C4, counterexample: `stopExecution` kills the process, but a
signal-killed process closes with a `null` exit code, so the close
handler's `success: code === 0` is **false**, not true: for the
non-interactive unit `import time\ntime.sleep(60)`, cancelling after
the chunk `partial` resolves with the accumulated output and
`success: false`, contradicting the claimed success flag of true. -/
theorem C4_counterexample :
    hasInputCall "import time\ntime.sleep(60)" = false ∧
    (plainRun [Ev.out "partial", Ev.stopReq, Ev.closed none]).resolved =
      some { output := "partial", error := "", success := false } :=
  ⟨by decide, by decide⟩

/-- C4, amended: for every session with a live process, `stopExecution`
kills the process and deregisters it, and the in-flight execute request
then resolves — through the close event of the killed process, which
carries a `null` exit code — with whatever output had accumulated and a
success flag of **false** (`code === 0` fails for `null`). -/
theorem C4_amended_stop (evs : List Ev)
    (hdata : ∀ e ∈ evs, isDataEv e = true) :
    (plainStep (plainRun evs) Ev.stopReq).alive = false ∧
    (plainStep (plainRun evs) Ev.stopReq).inActive = false ∧
    (plainRun (evs ++ [Ev.stopReq, Ev.closed none])).resolved =
      some { output := (plainRun evs).output, error := (plainRun evs).error,
             success := false } := by
  have hf := plainFold_data evs plainInit hdata
  have hact : (plainRun evs).inActive = true := hf.1
  have hres : (plainRun evs).resolved = none := hf.2.2
  have hstop : plainStep (plainRun evs) Ev.stopReq =
      { plainRun evs with alive := false, inActive := false } := by
    simp [plainStep, hact]
  have hrun : plainRun (evs ++ [Ev.stopReq, Ev.closed none]) =
      plainStep (plainStep (plainRun evs) Ev.stopReq) (Ev.closed none) := by
    simp [plainRun, List.foldl_append]
  rw [hrun, hstop]
  exact ⟨rfl, rfl, by simp [plainStep, resolveOnce, hres]⟩

/-- C4, witness for the amended theorem: cancel after the chunk `hi`. -/
theorem C4_amended_stop_witness :
    (plainRun [Ev.out "hi", Ev.stopReq, Ev.closed none]).resolved =
      some { output := "hi", error := "", success := false } := by
  have h := C4_amended_stop [Ev.out "hi"] (by simp [isDataEv])
  exact h.2.2.trans (by decide)

/-- C5: a code unit with no input-requesting construct takes the
non-interactive path, and when its process exits (close event with exit
code `c` after only stream-data events) the execute promise resolves —
exactly once, since `resolveOnce` models the once-only settlement of a
JS promise and the resolved value is pinned to the close event's — with
the accumulated output and error text, and `success` true iff the exit
code is zero. -/
theorem C5_plain_exit (code : String) (evs : List Ev) (c : Option Int)
    (hplain : hasInputCall code = false)
    (hdata : ∀ e ∈ evs, isDataEv e = true) :
    executePath code = ExecPath.plain ∧
    (plainRun (evs ++ [Ev.closed c])).resolved =
      some { output := (plainRun evs).output, error := (plainRun evs).error,
             success := decide (c = some 0) } := by
  have hf := plainFold_data evs plainInit hdata
  have hres : (plainRun evs).resolved = none := hf.2.2
  have hrun : plainRun (evs ++ [Ev.closed c]) = plainStep (plainRun evs) (Ev.closed c) := by
    simp [plainRun, List.foldl_append]
  rw [hrun]
  exact ⟨by simp [executePath, hplain], by simp [plainStep, resolveOnce, hres]⟩

/-- C5, witness: `print('hello')` exits 0 after printing `hello`. -/
theorem C5_plain_exit_witness :
    executePath "print('hello')" = ExecPath.plain ∧
    (plainRun [Ev.out "hello", Ev.closed (some 0)]).resolved =
      some { output := "hello", error := "", success := true } := by
  have h := C5_plain_exit "print('hello')" [Ev.out "hello"] (some 0)
    (by decide) (by simp [isDataEv])
  exact ⟨h.1, h.2.trans (by decide)⟩

/-- C6: forwarding input to a session in `WaitingForInput` writes the
input text terminated by a line break to the process's stdin and
resumes accumulating output without discarding prior transcript
content: when the process later closes, the resume promise resolves
with an output of which the pre-pause transcript is a prefix and which
contains every chunk the process printed after the resume (e.g. an
echoed `42`). -/
theorem C6_resume (s : InterSt) (inp : String) (mid : List Ev) (c : Option Int)
    (hsess : s.inSessions = true) (hwait : s.isWaitingForInput = true)
    (halive : s.alive = true) (hnores : s.sendResolved = none)
    (hdata : ∀ e ∈ mid, isDataEv e = true) :
    (interStep s (Ev.sendReq inp)).stdinWrites = s.stdinWrites ++ [inp ++ "\n"] ∧
    ∃ r, (interRunFrom (interStep s (Ev.sendReq inp)) (mid ++ [Ev.closed c])).sendResolved
        = some r ∧
      strPrefix s.sessOutput r.output = true ∧
      (∀ ch, Ev.out ch ∈ mid → strIncludes r.output ch = true) := by
  have hs1 : interStep s (Ev.sendReq inp) =
      { s with isWaitingForInput := false, inputPrompt := "",
               stdinWrites := s.stdinWrites ++ [inp ++ "\n"],
               resumeListeners := s.resumeListeners + 1 } := by
    simp [interStep, hsess, hwait, halive]
  refine ⟨by rw [hs1], ?_⟩
  have hf := interFold_data mid (interStep s (Ev.sendReq inp)) hdata
  have hrun : interRunFrom (interStep s (Ev.sendReq inp)) (mid ++ [Ev.closed c])
      = interStep (interRunFrom (interStep s (Ev.sendReq inp)) mid) (Ev.closed c) := by
    simp [interRunFrom, List.foldl_append]
  have hrl : (interRunFrom (interStep s (Ev.sendReq inp)) mid).resumeListeners
      = s.resumeListeners + 1 := by rw [hf.2.2.2.1, hs1]
  have hsr : (interRunFrom (interStep s (Ev.sendReq inp)) mid).sendResolved = none := by
    rw [hf.2.2.2.2.2.1, hs1]; exact hnores
  rw [hrun]
  refine ⟨{ output := (interRunFrom (interStep s (Ev.sendReq inp)) mid).sessOutput,
            error := (interRunFrom (interStep s (Ev.sendReq inp)) mid).sessError,
            success := decide (c = some 0) }, ?_, ?_, ?_⟩
  · rw [interStep_closed_resume _ c (by rw [hrl]; exact Nat.succ_ne_zero _), hsr]
    rfl
  · obtain ⟨t, ht⟩ := hf.2.2.2.2.2.2.2.1
    rw [ht, hs1]
    exact strPrefix_append _ _
  · intro ch hch
    exact hf.2.2.2.2.2.2.2.2 ch hch

/-- C6, witness: pause on `Enter name: `, resume with `42`; the process
echoes `42\n` and exits 0; the result's output retains the pre-pause
transcript as a prefix and contains the echoed text. -/
theorem C6_resume_witness :
    (interStep (interRun "cell_1.py" [Ev.out "Enter name: "]) (Ev.sendReq "42")).stdinWrites
      = (interRun "cell_1.py" [Ev.out "Enter name: "]).stdinWrites ++ ["42" ++ "\n"] ∧
    ∃ r, (interRunFrom
            (interStep (interRun "cell_1.py" [Ev.out "Enter name: "]) (Ev.sendReq "42"))
            ([Ev.out "42\n"] ++ [Ev.closed (some 0)])).sendResolved = some r ∧
      strPrefix (interRun "cell_1.py" [Ev.out "Enter name: "]).sessOutput r.output = true ∧
      strIncludes r.output "42\n" = true := by
  obtain ⟨h1, r, h2, h3, h4⟩ := C6_resume (interRun "cell_1.py" [Ev.out "Enter name: "])
    "42" [Ev.out "42\n"] (some 0) (by decide) (by decide) (by decide) (by decide)
    (by simp [isDataEv])
  exact ⟨h1, r, h2, h3, h4 "42\n" (by simp)⟩

/-- C7: when the process cannot be spawned, the `error` event handler
resolves the execute promise (on either path) with a failed result
whose combined output text (spec §3 merges the stdout and stderr texts
of a result) is exactly the OS error message; the handlers resolve
rather than throw, so nothing propagates as an exception. -/
theorem C7_spawn_failure (msg tempFile : String) :
    (plainStep plainInit (Ev.spawnFail msg)).resolved =
      some { output := "", error := msg, success := false } ∧
    (interStep (interInit tempFile) (Ev.spawnFail msg)).execResolved =
      some { output := "", error := msg, success := false } ∧
    combinedText { output := "", error := msg, success := false } = msg := by
  refine ⟨by simp [plainStep, plainInit, resolveOnce], ?_, ?_⟩
  · simp [interStep, interInit, resolveOnce]
  · simp [combinedText]

/-- C8: the claim (and spec §7e) is right and the code is wrong — there
is no `try`/`catch` around the stdin write at line 220, so for a
session whose process exited between detection and input delivery the
write failure escapes the promise executor as a rejection (modelled in
`sendRejected`) and no failed `ExecutionResult` is ever produced: the
state after `sendInput` carries the rejection and an unchanged
`sendResolved`. -/
theorem C8_write_failure_uncaught (s : InterSt) (inp : String)
    (hsess : s.inSessions = true) (hwait : s.isWaitingForInput = true)
    (hdead : s.alive = false) (hfresh : s.sendRejected = none) :
    interStep s (Ev.sendReq inp) =
      { s with isWaitingForInput := false, inputPrompt := "",
               sendRejected := some writeFailMsg } := by
  simp [interStep, hsess, hwait, hdead, hfresh, rejectOnce]

/-- C8, witness: the process is killed while the session is paused on
`Enter name: ` (`stopExecution` leaves the `executionSessions` entry in
place), then `sendInput(id, "42")` hits the dead stdin. -/
theorem C8_write_failure_uncaught_witness :
    interStep (interRun "cell_1.py" [Ev.out "Enter name: ", Ev.stopReq]) (Ev.sendReq "42") =
      { interRun "cell_1.py" [Ev.out "Enter name: ", Ev.stopReq] with
        isWaitingForInput := false, inputPrompt := "",
        sendRejected := some writeFailMsg } :=
  C8_write_failure_uncaught _ "42" (by decide) (by decide) (by decide) (by decide)

theorem parseCellJson_ipynbCell (i : Nat) (c : NBCell) (h : c.output ≠ some "") :
    parseCellJson (ipynbCell i c) = some c := by
  obtain ⟨ty, content, outp⟩ := c
  cases outp with
  | none =>
    cases ty <;> simp [ipynbCell, parseCellJson, jLookup, joinStrs, parseOutputs,
      String.append_empty]
  | some o =>
    have ho : o.isEmpty = false := by
      rw [strIsEmpty_false_iff]
      intro he
      exact h (by simp [he])
    cases ty <;> simp [ipynbCell, parseCellJson, jLookup, joinStrs, parseOutputs, ho,
      String.append_empty]

theorem parseCells_ipynbCells (i : Nat) (cells : List NBCell)
    (h : ∀ c ∈ cells, c.output ≠ some "") :
    parseCells (ipynbCells i cells) = some cells := by
  induction cells generalizing i with
  | nil => simp [ipynbCells, parseCells]
  | cons c rest ih =>
    simp [ipynbCells, parseCells, parseCellJson_ipynbCell i c (h c (by simp)),
      ih (i + 1) (fun c' h' => h c' (by simp [h']))]

/-- C9: re-parsing the structured-document (ipynb) export recovers the
original ordered unit list — each unit's kind, content, and captured
output when present (present = a non-empty captured output: the
generator's JS truthiness check drops an empty-string output exactly
like an absent one, and the export route passes `cell.output ||
undefined`, never an empty string).  Both generators are pure Lean
functions of the cell sequence alone, hence deterministic and
independent of registry or process state. -/
theorem C9_ipynb_roundtrip (cells : List NBCell)
    (hout : ∀ cell ∈ cells, cell.output ≠ some "") :
    parseNotebook (generateNotebookIpynbJson cells) = some cells := by
  simp [parseNotebook, generateNotebookIpynbJson, jLookup,
    parseCells_ipynbCells 0 cells hout]

/-- C9, witness: the empty sequence and a two-cell sequence (a python
cell with captured output and a markdown cell without) both round-trip. -/
theorem C9_ipynb_roundtrip_witness :
    parseNotebook (generateNotebookIpynbJson []) = some [] ∧
    parseNotebook (generateNotebookIpynbJson
        [{ type := CellType.python, content := "print('hello')", output := some "hello\n" },
         { type := CellType.markdown, content := "# notes", output := none }])
      = some
        [{ type := CellType.python, content := "print('hello')", output := some "hello\n" },
         { type := CellType.markdown, content := "# notes", output := none }] :=
  ⟨C9_ipynb_roundtrip [] (by simp), C9_ipynb_roundtrip _ (by decide)⟩

/-- C10, counterexample: a session that paused on `Enter name: ` and was
resumed with `Bob` is still registered when the 10-second timer fires;
the timer kills the process and removes the session, but nothing
resolves with success true — the execute promise had already resolved
with the intermediate waiting result (`success: false`), so the timer's
resolve call is a no-op, and the in-flight resume promise resolves
through the kill's close event (`null` exit code) with `success:
false`. -/
theorem C10_counterexample :
    (interRun "cell_1.py"
        [Ev.out "Enter name: ", Ev.sendReq "Bob", Ev.timeoutFire, Ev.closed none]).execResolved
      = some { output := "Enter name: ", error := "", success := false,
               isWaitingForInput := true, inputPrompt := "Enter name:" } ∧
    (interRun "cell_1.py"
        [Ev.out "Enter name: ", Ev.sendReq "Bob", Ev.timeoutFire, Ev.closed none]).sendResolved
      = some { output := "Enter name: ", error := "", success := false } ∧
    (interRun "cell_1.py"
        [Ev.out "Enter name: ", Ev.sendReq "Bob", Ev.timeoutFire, Ev.closed none]).inSessions
      = false :=
  ⟨by decide, by decide, by decide⟩

/-- C10, amended: the per-session timer is never canceled — its firing
condition mentions only registry membership, so a session paused in
`WaitingForInput` (or resumed after a pause) is hit at the same
deadline; when it fires on a registered session it kills the process,
removes the session, and attempts to resolve with success true, which
takes effect only if the execute promise is still unresolved
(`resolveOnce`); an unregistered session makes the timer a no-op; and a
resume in flight when the killed process closes (`null` exit code)
resolves with success **false**. -/
theorem C10_amended_timer (s : InterSt) :
    (s.inSessions = true →
      (interStep s Ev.timeoutFire).alive = false ∧
      (interStep s Ev.timeoutFire).inActive = false ∧
      (interStep s Ev.timeoutFire).inSessions = false ∧
      (interStep s Ev.timeoutFire).execResolved =
        resolveOnce s.execResolved
          { output := s.output, error := s.error, success := true }) ∧
    (s.inSessions = false → interStep s Ev.timeoutFire = s) ∧
    (s.resumeListeners ≠ 0 →
      (interStep s (Ev.closed none)).sendResolved =
        resolveOnce s.sendResolved
          { output := s.sessOutput, error := s.sessError, success := false }) := by
  refine ⟨fun h => ?_, fun h => ?_, fun h => ?_⟩
  · rw [interStep_timeout_reg s h]
    exact ⟨rfl, rfl, rfl, rfl⟩
  · simp [interStep, h]
  · simp [interStep, h]

/-- C10, witness: the timer fires on a registered paused session
(removing it), and the kill's close event resolves an in-flight resume
with success false. -/
theorem C10_amended_timer_witness :
    (interStep (interRun "cell_1.py" [Ev.out "Enter name: "]) Ev.timeoutFire).inSessions
      = false ∧
    (interStep
        (interRun "cell_1.py" [Ev.out "Enter name: ", Ev.sendReq "Bob", Ev.timeoutFire])
        (Ev.closed none)).sendResolved
      = some { output := "Enter name: ", error := "", success := false } := by
  refine ⟨((C10_amended_timer (interRun "cell_1.py" [Ev.out "Enter name: "])).1
    (by decide)).2.2.1, ?_⟩
  have h := (C10_amended_timer
    (interRun "cell_1.py" [Ev.out "Enter name: ", Ev.sendReq "Bob", Ev.timeoutFire])).2.2
    (by decide)
  exact h.trans (by decide)

end PyNote
